import Mathlib

/-!
A verification development for the vscode-webdav sync engine.

The definitions below are a shallow embedding of the TypeScript sources:
`PathUtils`, `FileOperations`, `SyncConfiguration` and `AutoSyncManager`.
Pure string and path manipulation is translated directly; the Node `path`
(posix flavour) and WHATWG `URL` platform primitives used by the sources are
modelled faithfully at the level of their documented algorithms; stateful
methods become explicit state-passing functions; remote WebDAV calls and the
`minimatch` glob engine are parameters (oracles) supplied to the functions
that invoke them; fallible code returns `Except`.
-/

deriving instance DecidableEq for Except

namespace WebdavSync

/-- Splits a character list at every `/` (the separator characters are dropped,
empty runs yield empty segments). -/
def splitSlash : List Char → List (List Char)
  | [] => [[]]
  | '/' :: rest => [] :: splitSlash rest
  | c :: rest =>
    match splitSlash rest with
    | [] => [[c]]
    | s :: ss => (c :: s) :: ss

/-- The non-empty `/`-separated segments of a path string. -/
def pathSegs (p : String) : List String :=
  ((splitSlash p.data).map List.asString).filter (fun s => s ≠ "")

/-- `str.startsWith sub` without relying on `String.Pos` internals: prefix
test on the underlying character lists. -/
def strStartsWith (s sub : String) : Bool :=
  sub.data.isPrefixOf s.data

/-- `str.endsWith sub` as a suffix test on the underlying character lists. -/
def strEndsWith (s sub : String) : Bool :=
  sub.data.reverse.isPrefixOf s.data.reverse

/-- Node `path.posix.dirname`, translated from its documented algorithm:
scan from the end, positions `1 .. len-1` only; skip trailing slashes, skip
the final name, the slash found there ends the directory part.  Returns `.`
when there is no directory part and `/` for root-only paths. -/
def jsDirname (p : String) : String :=
  let cs := p.data
  if cs = [] then "." else
  let hasRoot := cs.head? = some '/'
  let r1 := cs.reverse.dropWhile (fun c => c = '/')
  let r2 := r1.dropWhile (fun c => c ≠ '/')
  if r2.length ≥ 2 then
    let e := r2.length - 1
    if hasRoot ∧ e = 1 then "//" else List.asString (cs.take e)
  else if hasRoot then "/" else "."

/-- Node `path.posix.basename` (no extension argument): strip trailing
slashes, then take the final run of non-slash characters. -/
def jsBasename (p : String) : String :=
  List.asString (((p.data.reverse.dropWhile (fun c => c = '/')).takeWhile
    (fun c => c ≠ '/')).reverse)

/-- One step of Node's internal `normalizeString`: consume a path segment
into a (reversed) accumulator, resolving `.` and `..`.  `allowAbove` is
Node's `allowAboveRoot` (true for relative paths). -/
def normStep (allowAbove : Bool) (acc : List String) (s : String) : List String :=
  if s = "" ∨ s = "." then acc
  else if s = ".." then
    match acc with
    | [] => if allowAbove then [".."] else []
    | a :: rest => if a = ".." then ".." :: a :: rest else rest
  else s :: acc

/-- Node's `normalizeString(path, allowAboveRoot)` on already-split segments:
resulting segment list, in order. -/
def normSegs (allowAbove : Bool) (segs : List String) : List String :=
  (segs.foldl (normStep allowAbove) []).reverse

/-- The raw `/`-separated fields of a path string (empty fields kept, as
produced by splitting on every slash). -/
def rawSegs (p : String) : List String :=
  (splitSlash p.data).map List.asString

/-- Node `path.posix.normalize`: resolve `.`/`..`, collapse repeated slashes,
keep a trailing slash, return `.` (or `/`) when everything cancels. -/
def jsNormalize (p : String) : String :=
  if p = "" then "." else
  let isAbs := strStartsWith p "/"
  let trail := strEndsWith p "/"
  let segs := normSegs (¬ isAbs) (rawSegs p)
  if segs = [] then
    (if isAbs then "/" else if trail then "./" else ".")
  else
    let body := String.intercalate "/" segs
    let body := if trail then body ++ "/" else body
    if isAbs then "/" ++ body else body

/-- Node `path.posix.join` restricted to two arguments (the only arity the
sources use): drop empty arguments, connect with `/`, normalize. -/
def jsJoin2 (a b : String) : String :=
  if a = "" ∧ b = "" then "." else
  let joined := if a = "" then b else if b = "" then a else a ++ "/" ++ b
  jsNormalize joined

/-- Node `path.posix.resolve` of a single path, with the working directory
modelled as `/` (all paths the engine resolves are absolute, so the working
directory is never consulted on them). -/
def jsResolve (p : String) : String :=
  let q := if strStartsWith p "/" then p else "/" ++ p
  "/" ++ String.intercalate "/" (normSegs false (rawSegs q))

/-- Length of the longest common prefix of two lists. -/
def commonLen : List String → List String → Nat
  | a :: as, b :: bs => if a = b then commonLen as bs + 1 else 0
  | _, _ => 0

/-- Node `path.posix.relative`: resolve both paths, drop the common leading
segments, climb with `..` for what remains of `from`, descend into what
remains of `to`. -/
def jsRelative (fromPath toPath : String) : String :=
  let f := jsResolve fromPath
  let t := jsResolve toPath
  if f = t then "" else
  let fs := pathSegs f
  let ts := pathSegs t
  let c := commonLen fs ts
  String.intercalate "/" (List.replicate (fs.length - c) ".." ++ ts.drop c)

/-! ## PathUtils (src/unnamed/part_001, class `PathUtils`) -/

/-- `PathUtils.getRelativePath`: `path.relative(basePath, targetPath)`. -/
def getRelativePath (basePath targetPath : String) : String :=
  jsRelative basePath targetPath

/-- `PathUtils.normalizePath`: replace every backslash with a forward
slash. -/
def normalizePath (filePath : String) : String :=
  List.asString (filePath.data.map (fun c => if c = '\\' then '/' else c))

/-- `PathUtils.joinPaths` at the arity used by the sources:
`normalizePath(path.join(a, b))`. -/
def joinPaths (a b : String) : String :=
  normalizePath (jsJoin2 a b)

/-- `PathUtils.isExcluded`: some pattern in the list matches the normalized
path.  The `minimatch` glob engine is an external library; it enters as the
oracle `mm pattern path`. -/
def isExcluded (mm : String → String → Bool) (filePath : String)
    (excludePatterns : List String) : Bool :=
  excludePatterns.any (fun pat => mm pat (normalizePath filePath))

/-- `PathUtils.getParentPath`: `normalizePath(path.dirname(filePath))`. -/
def getParentPath (filePath : String) : String :=
  normalizePath (jsDirname filePath)

/-- The loop body of `PathUtils.getAllParents`, with explicit fuel (the
source's `while` loop terminates because `dirname` shortens its argument;
the fuel is chosen generously below).  The accumulator is built by pushing
each parent in front, which directly yields the source's final
root-to-immediate-parent order. -/
def getAllParentsAux : Nat → String → List String → List String
  | 0, _, acc => acc
  | fuel + 1, current, acc =>
    if current = "/" ∨ current = "." then acc
    else getAllParentsAux fuel (getParentPath current) (current :: acc)

/-- `PathUtils.getAllParents`: every ancestor directory of `filePath`, from
the root side down to the immediate parent. -/
def getAllParents (filePath : String) : List String :=
  getAllParentsAux (filePath.length + 2) (getParentPath filePath) []

/-- Models the platform WHATWG `URL` parser exactly as far as the sources
consume it: the `pathname` of a hierarchical `scheme://authority/path` URL.
Returns `none` when parsing fails (no `scheme://`, empty or ill-formed
scheme, empty authority) — the situation in which `new URL(...)` throws for
the base URLs this extension accepts and the source falls into its `catch`
branch. -/
def urlPathname (s : String) : Option String :=
  let cs := s.data
  let scheme := cs.takeWhile (fun c => c ≠ ':')
  let schemeOk :=
    match scheme with
    | [] => false
    | c :: rest => c.isAlpha && rest.all (fun d =>
        d.isAlpha || d.isDigit || d = '+' || d = '-' || d = '.')
  if schemeOk = false then none else
  match cs.dropWhile (fun c => c ≠ ':') with
  | ':' :: '/' :: '/' :: r =>
    let notEnd := fun (c : Char) => c ≠ '/' ∧ c ≠ '?' ∧ c ≠ '#'
    let auth := r.takeWhile notEnd
    if auth = [] then none else
    let tail := r.dropWhile notEnd
    let p := tail.takeWhile (fun c => c ≠ '?' ∧ c ≠ '#')
    some (if p = [] then "/" else List.asString p)
  | _ => none

/-- `PathUtils.toRemotePath` (src/unnamed/part_001 lines 46-61): relative
path from the local base, joined onto the URL's path component when
`webdavUrl` parses as a URL, or onto `webdavUrl` itself as a literal prefix
otherwise; a leading `/` is guaranteed either way. -/
def toRemotePath (localPath localBase webdavUrl : String) : String :=
  let relativePath := getRelativePath localBase localPath
  match urlPathname webdavUrl with
  | some basePath =>
    let remotePath := joinPaths basePath relativePath
    if strStartsWith remotePath "/" then remotePath else "/" ++ remotePath
  | none =>
    let remotePath := joinPaths webdavUrl relativePath
    if strStartsWith remotePath "/" then remotePath else "/" ++ remotePath

/-! ## Data model (src/src/sync/SyncConfiguration.ts and the `PendingChange`
interface of src/unnamed/part_000) -/

/-- The three filesystem event kinds delivered by the watcher. -/
inductive ChangeType where
  | create
  | change
  | delete
deriving DecidableEq, Repr

/-- The `status` field of a configuration. -/
inductive SyncStatus where
  | idle
  | syncing
  | error
deriving DecidableEq, Repr

/-- The `PendingChange` queue entry: target uri (its `fsPath`), event kind,
timestamp of last observation. -/
structure PendingChange where
  uri : String
  type : ChangeType
  timestamp : Nat
deriving DecidableEq, Repr

/-- `SyncConfiguration`: declarative fields plus the runtime fields mutated
during operation.  The fields the modelled operations never read (display
name aside) are kept where a claim mentions them. -/
structure SyncConfiguration where
  id : String
  name : String
  localPath : String
  remotePath : String
  enabled : Bool
  syncOnDelete : Bool
  syncHidden : Bool
  debounceMs : Nat
  excludePatterns : List String
  status : SyncStatus := SyncStatus.idle
  lastSyncTime : Option Nat := none
  lastError : Option String := none
  filesInQueue : Nat := 0
deriving DecidableEq, Repr

/-- JavaScript `Map.prototype.set` on an association list: an existing key
keeps its position and gets the new value, a new key is appended. -/
def mapSet (m : List (String × PendingChange)) (k : String) (v : PendingChange) :
    List (String × PendingChange) :=
  match m with
  | [] => [(k, v)]
  | (k', v') :: rest =>
    if k' = k then (k, v) :: rest else (k', v') :: mapSet rest k v

/-- JavaScript `Map.prototype.get` on an association list. -/
def mapGet (m : List (String × PendingChange)) (k : String) : Option PendingChange :=
  match m with
  | [] => none
  | (k', v') :: rest => if k' = k then some v' else mapGet rest k

/-- Number of entries of the map keyed by `k` (0 or 1 on any map that
respects the JavaScript `Map` key-uniqueness invariant). -/
def keyCount (m : List (String × PendingChange)) (k : String) : Nat :=
  (m.filter (fun e => e.1 = k)).length

/-- The JavaScript `Map` representation invariant: keys are pairwise
distinct. -/
def keysNodup (m : List (String × PendingChange)) : Prop :=
  (m.map Prod.fst).Nodup

/-! ## AutoSyncManager.queueChange (src/unnamed/part_000 lines 203-244)

The method mutates `this.pendingChanges.get(id)` and
`config.filesInQueue`; here it maps the configuration and that
configuration's pending map to their next values.  Timer manipulation
(lines 234-243) only reschedules the debounce deadline and is invisible to
the queue contents.  `mm` is the `minimatch` oracle and `now` the value of
`Date.now()`. -/

def queueChange (mm : String → String → Bool) (config : SyncConfiguration)
    (changes : List (String × PendingChange)) (filePath : String)
    (type : ChangeType) (now : Nat) :
    SyncConfiguration × List (String × PendingChange) :=
  if ¬ config.enabled then (config, changes)
  else
    let relativePath := getRelativePath config.localPath filePath
    if isExcluded mm relativePath config.excludePatterns then (config, changes)
    else if ¬ config.syncHidden ∧ strStartsWith (jsBasename filePath) "." then
      (config, changes)
    else if type = ChangeType.delete ∧ ¬ config.syncOnDelete then (config, changes)
    else
      let changes2 := mapSet changes filePath ⟨filePath, type, now⟩
      ({ config with filesInQueue := changes2.length }, changes2)

/-! ## AutoSyncManager.processPendingChanges (src/unnamed/part_000 lines
249-291)

`outcome path change` is the result of `await this.syncFile(config, path,
change.type)` — `.ok` when it resolves, `.error msg` when it throws with
message `msg`.  The drain point (capture the entries, clear the live map,
zero `filesInQueue`) is its own definition so that the state at that point
is addressable. -/

/-- The loop of `processPendingChanges`: tallies `successCount` and
`errorCount`, records `config.lastError` on each failure, and returns the
list of entries actually attempted (the loop catches per-entry errors, so
it never stops early). -/
def processBatch (outcome : String → PendingChange → Except String Unit) :
    List (String × PendingChange) → Nat × Nat × Option String →
    (Nat × Nat × Option String) × List (String × PendingChange)
  | [], st => (st, [])
  | (p, c) :: rest, (s, e, le) =>
    match outcome p c with
    | Except.ok _ =>
      let r := processBatch outcome rest (s + 1, e, le)
      (r.1, (p, c) :: r.2)
    | Except.error m =>
      let r := processBatch outcome rest (s, e + 1, some m)
      (r.1, (p, c) :: r.2)

/-- Lines 257-262: set status `syncing`, capture the entries, clear the live
map, zero `filesInQueue` — all before the first `syncFile` call.  Returns
(captured entries, configuration, live map). -/
def drainPhase (config : SyncConfiguration)
    (changes : List (String × PendingChange)) :
    List (String × PendingChange) × SyncConfiguration × List (String × PendingChange) :=
  (changes,
   { config with status := SyncStatus.syncing, filesInQueue := 0 },
   [])

/-- The whole of `processPendingChanges`: returns the final configuration,
the final live map, and the list of entries for which a sync was attempted.
When the pending map is empty the method returns at line 254 changing
nothing. -/
def processPendingChanges (outcome : String → PendingChange → Except String Unit)
    (config : SyncConfiguration) (changes : List (String × PendingChange))
    (now : Nat) :
    SyncConfiguration × List (String × PendingChange) × List (String × PendingChange) :=
  if changes.length = 0 then (config, changes, [])
  else
    let d := drainPhase config changes
    let changesToProcess := d.1
    let cfg := d.2.1
    let live := d.2.2
    let r := processBatch outcome changesToProcess (0, 0, cfg.lastError)
    let errorCount := r.1.2.1
    let lastErr := r.1.2.2
    ({ cfg with
       status := if errorCount > 0 then SyncStatus.error else SyncStatus.idle,
       lastSyncTime := some now,
       lastError := if errorCount = 0 then none else lastErr },
     live, r.2)

/-! ## Remote errors

WebDAV client rejections carry an optional numeric `status`, an optional
`statusText` and an optional `message`; JavaScript field absence is
`Option.none`. -/

structure WebdavErr where
  status : Option Nat
  statusText : Option String
  message : Option String
deriving DecidableEq, Repr

/-- JavaScript template-literal rendering of a possibly-undefined number. -/
def jsShowNatOpt : Option Nat → String
  | some n => Nat.repr n
  | none => "undefined"

/-- JavaScript `a || b || dflt` over possibly-undefined strings (empty
strings are falsy). -/
def jsOrElse (a b : Option String) (dflt : String) : String :=
  match a with
  | some s =>
    if s = "" then
      match b with
      | some t => if t = "" then dflt else t
      | none => dflt
    else s
  | none =>
    match b with
    | some t => if t = "" then dflt else t
    | none => dflt

/-! ## AutoSyncManager.syncFile (src/unnamed/part_000 lines 296-324)

`del remotePath` models `this.fileOps.deleteFile(client, remotePath)` and
`up localPath remotePath` models `this.fileOps.uploadFile(...)`; each is the
settled result of the corresponding awaited call. -/

def syncFile (del : String → Except WebdavErr Unit)
    (up : String → String → Except WebdavErr Unit)
    (config : SyncConfiguration) (localPath : String) (type : ChangeType) :
    Except WebdavErr Unit :=
  let remotePath := toRemotePath localPath config.localPath config.remotePath
  match type with
  | ChangeType.delete =>
    match del remotePath with
    | Except.ok _ => Except.ok ()
    | Except.error e =>
      if e.status = some 404 then Except.ok () else Except.error e
  | _ => up localPath remotePath

/-! ## AutoSyncManager.syncNow (src/unnamed/part_000 lines 329-405)

`up` models `this.fileOps.uploadFile` with the thrown error's `.message`;
`files` is the list `await this.fileOps.walkDirectory(...)` resolved to;
`now` is the clock read for `lastSyncTime`.  Progress reporting only
forwards counts to the optional UI sink and is dropped. -/

/-- The upload loop of `syncNow`'s `execute` closure: on the first failure
it throws the positional wrapper error built at line 375.  Also returns the
files for which an upload call was made, in order. -/
def syncLoop (up : String → String → Except String Unit)
    (config : SyncConfiguration) (total : Nat) :
    List String → Nat → List String → Except String Nat × List String
  | [], completed, att => (Except.ok completed, att.reverse)
  | file :: rest, completed, att =>
    let remotePath := toRemotePath file config.localPath config.remotePath
    match up file remotePath with
    | Except.ok _ => syncLoop up config total rest (completed + 1) (file :: att)
    | Except.error m =>
      (Except.error ("Failed at file " ++ Nat.repr (completed + 1) ++ "/" ++
         Nat.repr total ++ ": " ++ file ++ "\n" ++ m),
       (file :: att).reverse)

/-- The `execute` closure of `syncNow` (lines 339-394): status `syncing`
up front, then the loop; on success status `idle`, `lastSyncTime` updated,
`lastError` cleared; on failure the outer catch sets status `error`,
records `String(error)` (JavaScript renders an `Error` as
`Error: message`), and rethrows. -/
def syncNowExecute (up : String → String → Except String Unit)
    (config : SyncConfiguration) (files : List String) (now : Nat) :
    Except String Unit × SyncConfiguration × List String :=
  let cfg1 := { config with status := SyncStatus.syncing }
  match syncLoop up cfg1 files.length files 0 [] with
  | (Except.ok _, att) =>
    (Except.ok (),
     { cfg1 with status := SyncStatus.idle, lastSyncTime := some now,
                 lastError := none },
     att)
  | (Except.error m, att) =>
    (Except.error m,
     { cfg1 with status := SyncStatus.error, lastError := some ("Error: " ++ m) },
     att)

/-- The `AutoSyncManager` state the modelled operations touch: the
configuration registry, the per-configuration pending maps, and a count of
`_onDidChangeConfiguration.fire()` calls. -/
structure ManagerState where
  configurations : List (String × SyncConfiguration)
  pendingChanges : List (String × List (String × PendingChange))
  notifications : Nat
deriving DecidableEq, Repr

/-- `Map.get` on the configuration registry. -/
def cfgGet (m : List (String × SyncConfiguration)) (k : String) :
    Option SyncConfiguration :=
  match m with
  | [] => none
  | (k', v') :: rest => if k' = k then some v' else cfgGet rest k

/-- `Map.set` on the configuration registry. -/
def cfgSet (m : List (String × SyncConfiguration)) (k : String)
    (v : SyncConfiguration) : List (String × SyncConfiguration) :=
  match m with
  | [] => [(k, v)]
  | (k', v') :: rest =>
    if k' = k then (k, v) :: rest else (k', v') :: cfgSet rest k v

/-- `syncNow(id)` at the manager level.  The two guard throws at lines
331-337 happen before `execute` runs, so on those paths the returned state
is the input state; otherwise `execute` mutates the configuration (two
change notifications fire: one entering `syncing`, one on completion). -/
def syncNow (up : String → String → Except String Unit) (st : ManagerState)
    (id : String) (files : List String) (now : Nat) :
    Except String Unit × ManagerState × List String :=
  match cfgGet st.configurations id with
  | none => (Except.error ("Sync configuration not found: " ++ id), st, [])
  | some config =>
    if ¬ config.enabled then
      (Except.error ("Sync is disabled: " ++ config.name), st, [])
    else
      let r := syncNowExecute up config files now
      (r.1,
       { st with configurations := cfgSet st.configurations id r.2.1,
                 notifications := st.notifications + 2 },
       r.2.2)

/-! ## FileOperations (src/src/bundle.js lines 19-171)

Remote calls are oracles: `statr parent` is whether `client.stat(parent)`
resolves, `mkdir parent` the settled result of
`client.createDirectory(parent)`.  A trace of the remote calls actually
issued is returned alongside the result. -/

/-- A remote call issued by the directory-ensure chain. -/
inductive RemoteCall where
  | statCall (path : String)
  | mkdirCall (path : String)
deriving DecidableEq, Repr

/-- The error message built at bundle.js line 55 when `createDirectory`
fails with a status other than 405. -/
def mkdirFailMsg (parent : String) (e : WebdavErr) : String :=
  "Failed to create directory " ++ parent ++ ": Invalid response: " ++
    jsShowNatOpt e.status ++ " " ++ jsOrElse e.statusText e.message "Unknown error"

/-- `basePath.replace(/\/$/, '')`: strip one trailing slash. -/
def stripTrailingSlash (basePath : String) : String :=
  if strEndsWith basePath "/" then List.asString basePath.data.dropLast
  else basePath

/-- The `for (const parent of parents)` loop of `ensureRemoteDirectory`:
skip ancestors equal to or shorter than the normalized base path, stat the
others, create on stat failure, tolerate creation status 405, abort on any
other creation failure. -/
def ensureLoop (statr : String → Bool) (mkdir : String → Except WebdavErr Unit)
    (normalizedBasePath : String) :
    List String → List RemoteCall → Except String Unit × List RemoteCall
  | [], acc => (Except.ok (), acc.reverse)
  | parent :: rest, acc =>
    let normalizedParent := normalizePath parent
    if normalizedParent = normalizedBasePath ∨
        normalizedParent.length < normalizedBasePath.length then
      ensureLoop statr mkdir normalizedBasePath rest acc
    else if statr parent then
      ensureLoop statr mkdir normalizedBasePath rest
        (RemoteCall.statCall parent :: acc)
    else
      match mkdir parent with
      | Except.ok _ =>
        ensureLoop statr mkdir normalizedBasePath rest
          (RemoteCall.mkdirCall parent :: RemoteCall.statCall parent :: acc)
      | Except.error e =>
        if e.status = some 405 then
          ensureLoop statr mkdir normalizedBasePath rest
            (RemoteCall.mkdirCall parent :: RemoteCall.statCall parent :: acc)
        else
          (Except.error (mkdirFailMsg parent e),
           (RemoteCall.mkdirCall parent :: RemoteCall.statCall parent :: acc).reverse)

/-- `FileOperations.ensureRemoteDirectory` (bundle.js lines 26-60). -/
def ensureRemoteDirectory (statr : String → Bool)
    (mkdir : String → Except WebdavErr Unit) (remotePath basePath : String) :
    Except String Unit × List RemoteCall :=
  ensureLoop statr mkdir (normalizePath (stripTrailingSlash basePath))
    (getAllParents remotePath) []

/-- JavaScript rendering of `error.message || error` for a WebDAV client
error (a messageless object renders as `[object Object]`). -/
def webdavErrText (e : WebdavErr) : String :=
  match e.message with
  | some s => if s = "" then "[object Object]" else s
  | none => "[object Object]"

/-- The error wrapper of `uploadFile`'s catch block (bundle.js lines 84-90):
prefix with local and remote path, append `(HTTP status)` when the error
carries a truthy status. -/
def uploadWrap (localPath remotePath m : String) (status : Option Nat) : String :=
  let base := "Upload failed for " ++ localPath ++ " → " ++ remotePath ++ ": " ++ m
  match status with
  | some n => if n = 0 then base else base ++ " (HTTP " ++ Nat.repr n ++ ")"
  | none => base

/-- `FileOperations.uploadFile` (bundle.js lines 66-91): ensure the parent
chain unless the parent is `/`, read the local file (`readf`), then PUT
(`put`); every failure is wrapped by the catch block.  Errors thrown by the
ensure chain are plain `Error`s with no status. -/
def uploadFile (statr : String → Bool) (mkdir : String → Except WebdavErr Unit)
    (readf : String → Except String Unit) (put : String → Except WebdavErr Unit)
    (localPath remotePath basePath : String) :
    Except String Unit × List RemoteCall :=
  let ensure :=
    if getParentPath remotePath ≠ "/" then
      ensureRemoteDirectory statr mkdir remotePath basePath
    else (Except.ok (), [])
  match ensure with
  | (Except.error m, calls) =>
    (Except.error (uploadWrap localPath remotePath m none), calls)
  | (Except.ok _, calls) =>
    match readf localPath with
    | Except.error m =>
      (Except.error (uploadWrap localPath remotePath m none), calls)
    | Except.ok _ =>
      match put remotePath with
      | Except.ok _ => (Except.ok (), calls)
      | Except.error e =>
        (Except.error (uploadWrap localPath remotePath (webdavErrText e) e.status),
         calls)

/-- `FileOperations.deleteFile` (bundle.js lines 96-98): forwards to
`client.deleteFile` unchanged. -/
def deleteFile (delr : String → Except WebdavErr Unit) (remotePath : String) :
    Except WebdavErr Unit :=
  delr remotePath

/-! ## FileOperations.walkDirectory (bundle.js lines 103-137)

The local directory tree is an explicit value.  A `readdir` listing is a
sibling chain: `FSTree.file name next` and `FSTree.dir name children next`
are the entries of one directory in `readdir` order, ended by
`FSTree.nil`. -/

/-- Local directory entries as reported by `readdir(withFileTypes)`, in
first-child/next-sibling form. -/
inductive FSTree where
  | nil
  | file (name : String) (next : FSTree)
  | dir (name : String) (children : FSTree) (next : FSTree)
deriving DecidableEq, Repr

/-- The recursive `walk` closure of `walkDirectory`: hidden-name skip,
exclusion skip, recurse into directories, collect files, in entry order. -/
def walkTree (mm : String → String → Bool) (dirPath : String)
    (excludePatterns : List String) (syncHidden : Bool) :
    String → FSTree → List String
  | _, FSTree.nil => []
  | currentPath, FSTree.file name next =>
    let fullPath := jsJoin2 currentPath name
    let relativePath := getRelativePath dirPath fullPath
    if ¬ syncHidden ∧ strStartsWith name "." then
      walkTree mm dirPath excludePatterns syncHidden currentPath next
    else if isExcluded mm relativePath excludePatterns then
      walkTree mm dirPath excludePatterns syncHidden currentPath next
    else fullPath :: walkTree mm dirPath excludePatterns syncHidden currentPath next
  | currentPath, FSTree.dir name children next =>
    let fullPath := jsJoin2 currentPath name
    let relativePath := getRelativePath dirPath fullPath
    if ¬ syncHidden ∧ strStartsWith name "." then
      walkTree mm dirPath excludePatterns syncHidden currentPath next
    else if isExcluded mm relativePath excludePatterns then
      walkTree mm dirPath excludePatterns syncHidden currentPath next
    else
      walkTree mm dirPath excludePatterns syncHidden fullPath children ++
        walkTree mm dirPath excludePatterns syncHidden currentPath next

/-- `FileOperations.walkDirectory`: all file paths below `dirPath` in the
tree `entries`, in walk order. -/
def walkDirectory (mm : String → String → Bool) (dirPath : String)
    (entries : FSTree) (excludePatterns : List String)
    (syncHidden : Bool) : List String :=
  walkTree mm dirPath excludePatterns syncHidden dirPath entries

/-! ## Lemmas: the JavaScript map model -/

theorem mapGet_mapSet_self (m : List (String × PendingChange)) (k : String)
    (v : PendingChange) : mapGet (mapSet m k v) k = some v := by
  induction m with
  | nil => simp [mapSet, mapGet]
  | cons hd tl ih =>
    by_cases h : hd.1 = k
    · simp [mapSet, mapGet, h]
    · simpa [mapSet, mapGet, h] using ih

theorem mem_keys_mapSet {m : List (String × PendingChange)} {k a : String}
    {v : PendingChange} (h : a ∈ (mapSet m k v).map Prod.fst) :
    a ∈ m.map Prod.fst ∨ a = k := by
  induction m with
  | nil => simpa [mapSet] using h
  | cons hd tl ih =>
    by_cases hk : hd.1 = k
    · simp only [mapSet, hk, if_true, List.map_cons, List.mem_cons] at h
      rcases h with h | h
      · exact Or.inr h
      · exact Or.inl (by simp [List.mem_cons, h])
    · simp only [mapSet, hk, if_false, List.map_cons, List.mem_cons] at h
      rcases h with h | h
      · exact Or.inl (by simp [List.mem_cons, h])
      · rcases ih h with h' | h'
        · exact Or.inl (by simp [List.mem_cons, h'])
        · exact Or.inr h'

theorem mapSet_keysNodup {m : List (String × PendingChange)} (k : String)
    (v : PendingChange) (h : keysNodup m) : keysNodup (mapSet m k v) := by
  induction m with
  | nil => simp [mapSet, keysNodup]
  | cons hd tl ih =>
    unfold keysNodup at h
    simp only [List.map_cons, List.nodup_cons] at h
    by_cases hk : hd.1 = k
    · unfold keysNodup
      simp only [mapSet, hk, if_true, List.map_cons, List.nodup_cons]
      exact ⟨by simpa [hk] using h.1, h.2⟩
    · unfold keysNodup
      simp only [mapSet, hk, if_false, List.map_cons, List.nodup_cons]
      refine ⟨fun hmem => ?_, ih h.2⟩
      rcases mem_keys_mapSet hmem with h' | h'
      · exact h.1 h'
      · exact hk h'

theorem keyCount_eq_zero_of_not_mem {m : List (String × PendingChange)}
    {k : String} (h : k ∉ m.map Prod.fst) : keyCount m k = 0 := by
  induction m with
  | nil => simp [keyCount]
  | cons hd tl ih =>
    simp only [List.map_cons, List.mem_cons, not_or] at h
    have hne : ¬ hd.1 = k := fun he => h.1 he.symm
    simpa [keyCount, List.filter, hne] using ih h.2

theorem keyCount_eq_one_of_get_some {m : List (String × PendingChange)}
    {k : String} {v : PendingChange} (hnd : keysNodup m)
    (hget : mapGet m k = some v) : keyCount m k = 1 := by
  induction m with
  | nil => simp [mapGet] at hget
  | cons hd tl ih =>
    unfold keysNodup at hnd
    simp only [List.map_cons, List.nodup_cons] at hnd
    by_cases hk : hd.1 = k
    · have h0 : keyCount tl k = 0 :=
        keyCount_eq_zero_of_not_mem (by rw [← hk]; exact hnd.1)
      simp [keyCount, List.filter, hk] at h0 ⊢
      simpa [keyCount] using h0
    · simp only [mapGet, hk, if_false] at hget
      simpa [keyCount, List.filter, hk] using ih hnd.2 hget

/-! ## Claim C1 — coalescing in `queueChange` -/

instance (m : List (String × PendingChange)) : Decidable (keysNodup m) := by
  unfold keysNodup; infer_instance

/-- The four filters of `queueChange` all pass: the configuration is
enabled, the path is not excluded, not a skipped hidden basename, and not a
delete while deletes are off. -/
def qualifies (mm : String → String → Bool) (config : SyncConfiguration)
    (filePath : String) (type : ChangeType) : Prop :=
  config.enabled ∧
  ¬ isExcluded mm (getRelativePath config.localPath filePath) config.excludePatterns ∧
  ¬ (¬ config.syncHidden ∧ strStartsWith (jsBasename filePath) ".") ∧
  ¬ (type = ChangeType.delete ∧ ¬ config.syncOnDelete)

instance (mm : String → String → Bool) (config : SyncConfiguration)
    (filePath : String) (type : ChangeType) :
    Decidable (qualifies mm config filePath type) := by
  unfold qualifies; infer_instance

/-- A sequence of events on one path, each processed by `queueChange` (no
drain in between: one debounce window). -/
def queueAll (mm : String → String → Bool) (config : SyncConfiguration)
    (changes : List (String × PendingChange)) (filePath : String)
    (evs : List (ChangeType × Nat)) :
    SyncConfiguration × List (String × PendingChange) :=
  evs.foldl (fun st ev => queueChange mm st.1 st.2 filePath ev.1 ev.2)
    (config, changes)

theorem queueChange_qualified (mm : String → String → Bool)
    (config : SyncConfiguration) (changes : List (String × PendingChange))
    (filePath : String) (type : ChangeType) (now : Nat)
    (h : qualifies mm config filePath type) :
    queueChange mm config changes filePath type now =
      ({ config with
          filesInQueue := (mapSet changes filePath ⟨filePath, type, now⟩).length },
       mapSet changes filePath ⟨filePath, type, now⟩) := by
  obtain ⟨h1, h2, h3, h4⟩ := h
  unfold queueChange
  rw [if_neg (not_not_intro h1), if_neg h2, if_neg h3, if_neg h4]

theorem queueChange_snd_cases (mm : String → String → Bool)
    (config : SyncConfiguration) (changes : List (String × PendingChange))
    (filePath : String) (type : ChangeType) (now : Nat) :
    (queueChange mm config changes filePath type now).2 = changes ∨
    (queueChange mm config changes filePath type now).2 =
      mapSet changes filePath ⟨filePath, type, now⟩ := by
  simp only [queueChange]
  split
  · exact Or.inl rfl
  split
  · exact Or.inl rfl
  split
  · exact Or.inl rfl
  split
  · exact Or.inl rfl
  · exact Or.inr rfl

theorem queueChange_keysNodup (mm : String → String → Bool)
    (config : SyncConfiguration) (changes : List (String × PendingChange))
    (filePath : String) (type : ChangeType) (now : Nat)
    (h : keysNodup changes) :
    keysNodup (queueChange mm config changes filePath type now).2 := by
  rcases queueChange_snd_cases mm config changes filePath type now with hc | hc
  · rw [hc]; exact h
  · rw [hc]; exact mapSet_keysNodup filePath _ h

theorem queueAll_keysNodup (mm : String → String → Bool)
    (config : SyncConfiguration) (changes : List (String × PendingChange))
    (filePath : String) (evs : List (ChangeType × Nat))
    (h : keysNodup changes) :
    keysNodup (queueAll mm config changes filePath evs).2 := by
  induction evs generalizing config changes with
  | nil => exact h
  | cons ev rest ih =>
    have hstep := queueChange_keysNodup mm config changes filePath ev.1 ev.2 h
    simpa [queueAll, List.foldl_cons] using
      ih (queueChange mm config changes filePath ev.1 ev.2).1
        (queueChange mm config changes filePath ev.1 ev.2).2 hstep

theorem queueAll_qualified_get (mm : String → String → Bool)
    (config : SyncConfiguration) (changes : List (String × PendingChange))
    (filePath : String) (evs : List (ChangeType × Nat)) (hne : evs ≠ [])
    (hq : ∀ ev ∈ evs, qualifies mm config filePath ev.1) :
    mapGet (queueAll mm config changes filePath evs).2 filePath =
      some ⟨filePath, (evs.getLast hne).1, (evs.getLast hne).2⟩ := by
  induction evs generalizing config changes with
  | nil => exact absurd rfl hne
  | cons ev rest ih =>
    have hqe : qualifies mm config filePath ev.1 := hq ev (by simp)
    by_cases hr : rest = []
    · subst hr
      simp only [queueAll, List.foldl_cons, List.foldl_nil,
        queueChange_qualified mm config changes filePath ev.1 ev.2 hqe,
        List.getLast_singleton]
      exact mapGet_mapSet_self changes filePath ⟨filePath, ev.1, ev.2⟩
    · have hq' : ∀ e ∈ rest, qualifies mm
          { config with
            filesInQueue :=
              (mapSet changes filePath ⟨filePath, ev.1, ev.2⟩).length }
          filePath e.1 := by
        intro e he
        exact hq e (by simp [he])
      have := ih
        ({ config with
           filesInQueue :=
             (mapSet changes filePath ⟨filePath, ev.1, ev.2⟩).length })
        (mapSet changes filePath ⟨filePath, ev.1, ev.2⟩) hr hq'
      rw [List.getLast_cons hr]
      simpa [queueAll, List.foldl_cons,
        queueChange_qualified mm config changes filePath ev.1 ev.2 hqe]
        using this

/-- Claim C1.  Coalescing invariant of the pending-change queue: starting
from any pending map that respects the one-entry-per-key invariant, after
`queueChange` processes N ≥ 1 qualifying events on one local path within
one debounce window, the map holds exactly one entry for that path, carrying
the kind and timestamp of the last event; and after every prefix of the
sequence the map still has pairwise-distinct keys, so it never holds two
entries for the same path. -/
theorem C1_queueChange_coalescing (mm : String → String → Bool)
    (config : SyncConfiguration) (changes : List (String × PendingChange))
    (filePath : String) (evs : List (ChangeType × Nat)) (hne : evs ≠ [])
    (hq : ∀ ev ∈ evs, qualifies mm config filePath ev.1)
    (hnd : keysNodup changes) :
    keyCount (queueAll mm config changes filePath evs).2 filePath = 1 ∧
    mapGet (queueAll mm config changes filePath evs).2 filePath =
      some ⟨filePath, (evs.getLast hne).1, (evs.getLast hne).2⟩ ∧
    ∀ n, keysNodup (queueAll mm config changes filePath (evs.take n)).2 := by
  have hget := queueAll_qualified_get mm config changes filePath evs hne hq
  have hnd' := queueAll_keysNodup mm config changes filePath evs hnd
  exact ⟨keyCount_eq_one_of_get_some hnd' hget, hget,
    fun n => queueAll_keysNodup mm config changes filePath (evs.take n) hnd⟩

/-- Concrete sync configuration used by the witnesses. -/
def demoConfig : SyncConfiguration :=
  { id := "cfg-1", name := "demo", localPath := "/repo",
    remotePath := "https://host/base/", enabled := true, syncOnDelete := true,
    syncHidden := false, debounceMs := 500, excludePatterns := [] }

/-- Glob oracle of the witnesses: nothing matches (empty exclude lists). -/
def mmNone : String → String → Bool := fun _ _ => false

theorem C1_queueChange_coalescing_witness :
    keyCount (queueAll mmNone demoConfig [] "/repo/a.txt"
      [(ChangeType.create, 1), (ChangeType.change, 2), (ChangeType.delete, 3)]).2
      "/repo/a.txt" = 1 ∧
    mapGet (queueAll mmNone demoConfig [] "/repo/a.txt"
      [(ChangeType.create, 1), (ChangeType.change, 2), (ChangeType.delete, 3)]).2
      "/repo/a.txt" = some ⟨"/repo/a.txt", ChangeType.delete, 3⟩ ∧
    ∀ n, keysNodup (queueAll mmNone demoConfig [] "/repo/a.txt"
      ([(ChangeType.create, 1), (ChangeType.change, 2),
        (ChangeType.delete, 3)].take n)).2 := by
  have h := C1_queueChange_coalescing mmNone demoConfig [] "/repo/a.txt"
    [(ChangeType.create, 1), (ChangeType.change, 2), (ChangeType.delete, 3)]
    (by decide) (by decide) (by decide)
  refine ⟨h.1, ?_, h.2.2⟩
  rw [h.2.1]
  rfl

/-! ## Claims C2 and C3 — batch processing -/

/-- Number of batch entries whose sync attempt fails (the K of the claim). -/
def failCount (outcome : String → PendingChange → Except String Unit) :
    List (String × PendingChange) → Nat
  | [] => 0
  | (p, c) :: rest =>
    match outcome p c with
    | Except.ok _ => failCount outcome rest
    | Except.error _ => failCount outcome rest + 1

/-- Number of batch entries whose sync attempt succeeds. -/
def succCount (outcome : String → PendingChange → Except String Unit) :
    List (String × PendingChange) → Nat
  | [] => 0
  | (p, c) :: rest =>
    match outcome p c with
    | Except.ok _ => succCount outcome rest + 1
    | Except.error _ => succCount outcome rest

/-- The value `config.lastError` holds after the loop: the message of the
last failing entry, or the incoming value if none fails. -/
def lastFailMsg (outcome : String → PendingChange → Except String Unit) :
    List (String × PendingChange) → Option String → Option String
  | [], le => le
  | (p, c) :: rest, le =>
    match outcome p c with
    | Except.ok _ => lastFailMsg outcome rest le
    | Except.error m => lastFailMsg outcome rest (some m)

theorem processBatch_spec (outcome : String → PendingChange → Except String Unit)
    (entries : List (String × PendingChange)) (s e : Nat) (le : Option String) :
    processBatch outcome entries (s, e, le) =
      ((s + succCount outcome entries, e + failCount outcome entries,
        lastFailMsg outcome entries le), entries) := by
  induction entries generalizing s e le with
  | nil => simp [processBatch, succCount, failCount, lastFailMsg]
  | cons hd tl ih =>
    obtain ⟨p, c⟩ := hd
    cases hout : outcome p c with
    | ok u =>
      have hs : s + 1 + succCount outcome tl = s + (succCount outcome tl + 1) := by
        omega
      simp only [processBatch, succCount, failCount, lastFailMsg, hout,
        ih (s + 1) e le, hs]
    | error m =>
      have he : e + 1 + failCount outcome tl = e + (failCount outcome tl + 1) := by
        omega
      simp only [processBatch, succCount, failCount, lastFailMsg, hout,
        ih s (e + 1) (some m), he]

theorem lastFailMsg_of_no_fail (outcome : String → PendingChange → Except String Unit)
    (entries : List (String × PendingChange)) (le : Option String)
    (h : failCount outcome entries = 0) :
    lastFailMsg outcome entries le = le := by
  induction entries generalizing le with
  | nil => rfl
  | cons hd tl ih =>
    obtain ⟨p, c⟩ := hd
    cases hout : outcome p c with
    | ok u =>
      simp only [failCount, hout] at h
      simpa [lastFailMsg, hout] using ih le h
    | error m =>
      simp [failCount, hout] at h

theorem lastFailMsg_mem (outcome : String → PendingChange → Except String Unit)
    (entries : List (String × PendingChange)) (le : Option String)
    (h : failCount outcome entries > 0) :
    ∃ pc ∈ entries, ∃ m, outcome pc.1 pc.2 = Except.error m ∧
      lastFailMsg outcome entries le = some m := by
  induction entries generalizing le with
  | nil => simp [failCount] at h
  | cons hd tl ih =>
    obtain ⟨p, c⟩ := hd
    cases hout : outcome p c with
    | ok u =>
      simp only [failCount, hout] at h
      obtain ⟨pc, hpc, m, hm, hlast⟩ := ih le h
      exact ⟨pc, by simp [hpc], m, hm, by simpa [lastFailMsg, hout] using hlast⟩
    | error m0 =>
      by_cases htl : failCount outcome tl > 0
      · obtain ⟨pc, hpc, m, hm, hlast⟩ := ih (some m0) htl
        exact ⟨pc, by simp [hpc], m, hm, by simpa [lastFailMsg, hout] using hlast⟩
      · have h0 : failCount outcome tl = 0 := by omega
        refine ⟨(p, c), by simp, m0, hout, ?_⟩
        simpa [lastFailMsg, hout] using lastFailMsg_of_no_fail outcome tl (some m0) h0

/-- Closed form of `processPendingChanges` on a non-empty pending map. -/
theorem processPendingChanges_eq
    (outcome : String → PendingChange → Except String Unit)
    (config : SyncConfiguration) (changes : List (String × PendingChange))
    (now : Nat) (hne : changes ≠ []) :
    processPendingChanges outcome config changes now =
      ({ config with
          filesInQueue := 0,
          status := if failCount outcome changes > 0 then SyncStatus.error
                    else SyncStatus.idle,
          lastSyncTime := some now,
          lastError := if failCount outcome changes = 0 then none
                       else lastFailMsg outcome changes config.lastError },
       [], changes) := by
  have hlen : ¬ changes.length = 0 := by
    simpa [List.length_eq_zero] using hne
  simp only [processPendingChanges, drainPhase, hlen, if_false,
    processBatch_spec, Nat.zero_add]

/-- Claim C2.  Batch status aggregation: for a non-empty captured batch, the
loop attempts every entry (a per-entry failure never aborts it); afterwards
the status is `error` exactly when some entry failed and `idle` exactly when
none did, `lastSyncTime` is updated unconditionally, and `lastError` is
cleared exactly when no entry failed — otherwise it holds the message of a
failed entry. -/
theorem C2_processPendingChanges_aggregation
    (outcome : String → PendingChange → Except String Unit)
    (config : SyncConfiguration) (changes : List (String × PendingChange))
    (now : Nat) (hne : changes ≠ []) :
    (processPendingChanges outcome config changes now).2.2 = changes ∧
    ((processPendingChanges outcome config changes now).1.status = SyncStatus.error ↔
      failCount outcome changes > 0) ∧
    ((processPendingChanges outcome config changes now).1.status = SyncStatus.idle ↔
      failCount outcome changes = 0) ∧
    (processPendingChanges outcome config changes now).1.lastSyncTime = some now ∧
    ((processPendingChanges outcome config changes now).1.lastError = none ↔
      failCount outcome changes = 0) ∧
    (failCount outcome changes > 0 →
      ∃ pc ∈ changes, ∃ m, outcome pc.1 pc.2 = Except.error m ∧
        (processPendingChanges outcome config changes now).1.lastError = some m) := by
  rw [processPendingChanges_eq outcome config changes now hne]
  refine ⟨rfl, ?_, ?_, rfl, ?_, ?_⟩
  · by_cases hf : failCount outcome changes > 0 <;> simp [hf]
  · by_cases hf : failCount outcome changes > 0 <;> simp [hf] <;> omega
  · by_cases hf : failCount outcome changes = 0
    · simp [hf]
    · have hgt : failCount outcome changes > 0 := by omega
      obtain ⟨pc, hpc, m, hm, hlast⟩ :=
        lastFailMsg_mem outcome changes config.lastError hgt
      simp [hf, hlast]
  · intro hgt
    obtain ⟨pc, hpc, m, hm, hlast⟩ :=
      lastFailMsg_mem outcome changes config.lastError hgt
    have hf : ¬ failCount outcome changes = 0 := by omega
    exact ⟨pc, hpc, m, hm, by simp [hf, hlast]⟩

/-- Claim C3.  Drain atomicity: on a non-empty pending set, the drain phase
captures the entire set, clears the live set and zeroes `filesInQueue`
before the batch loop issues any remote operation; the batch then processes
exactly the captured entries and leaves the live set empty, and a
qualifying event arriving afterwards is inserted into the fresh,
initially-empty pending set as its only entry. -/
theorem C3_drain_atomicity
    (outcome : String → PendingChange → Except String Unit)
    (config : SyncConfiguration) (changes : List (String × PendingChange))
    (now : Nat) (hne : changes ≠ []) :
    (drainPhase config changes).1 = changes ∧
    (drainPhase config changes).2.2 = [] ∧
    (drainPhase config changes).2.1.filesInQueue = 0 ∧
    (processPendingChanges outcome config changes now).2.2 =
      (drainPhase config changes).1 ∧
    (processPendingChanges outcome config changes now).2.1 = [] ∧
    (∀ (mm : String → String → Bool) (filePath : String) (type : ChangeType)
        (tnow : Nat),
      qualifies mm (drainPhase config changes).2.1 filePath type →
      (queueChange mm (drainPhase config changes).2.1
          (drainPhase config changes).2.2 filePath type tnow).2 =
        [(filePath, ⟨filePath, type, tnow⟩)]) := by
  refine ⟨rfl, rfl, rfl, ?_, ?_, ?_⟩
  · rw [processPendingChanges_eq outcome config changes now hne]
    rfl
  · rw [processPendingChanges_eq outcome config changes now hne]
  · intro mm filePath type tnow hq
    rw [queueChange_qualified mm _ _ filePath type tnow hq]
    rfl

theorem C2_processPendingChanges_aggregation_witness :
    ((processPendingChanges
        (fun p _ => if p = "/repo/bad" then Except.error "boom" else Except.ok ())
        demoConfig
        [("/repo/a", ⟨"/repo/a", ChangeType.create, 1⟩),
         ("/repo/bad", ⟨"/repo/bad", ChangeType.change, 2⟩)] 9).2.2 =
      [("/repo/a", ⟨"/repo/a", ChangeType.create, 1⟩),
       ("/repo/bad", ⟨"/repo/bad", ChangeType.change, 2⟩)]) ∧
    ((processPendingChanges
        (fun p _ => if p = "/repo/bad" then Except.error "boom" else Except.ok ())
        demoConfig
        [("/repo/a", ⟨"/repo/a", ChangeType.create, 1⟩),
         ("/repo/bad", ⟨"/repo/bad", ChangeType.change, 2⟩)] 9).1.status =
      SyncStatus.error) ∧
    ((processPendingChanges
        (fun p _ => if p = "/repo/bad" then Except.error "boom" else Except.ok ())
        demoConfig
        [("/repo/a", ⟨"/repo/a", ChangeType.create, 1⟩),
         ("/repo/bad", ⟨"/repo/bad", ChangeType.change, 2⟩)] 9).1.lastSyncTime =
      some 9) := by
  have h := C2_processPendingChanges_aggregation
    (fun p _ => if p = "/repo/bad" then Except.error "boom" else Except.ok ())
    demoConfig
    [("/repo/a", ⟨"/repo/a", ChangeType.create, 1⟩),
     ("/repo/bad", ⟨"/repo/bad", ChangeType.change, 2⟩)] 9 (by decide)
  exact ⟨h.1, h.2.1.mpr (by decide), h.2.2.2.1⟩

theorem C3_drain_atomicity_witness :
    ((drainPhase demoConfig [("/repo/a", ⟨"/repo/a", ChangeType.create, 1⟩)]).1 =
      [("/repo/a", ⟨"/repo/a", ChangeType.create, 1⟩)]) ∧
    ((drainPhase demoConfig [("/repo/a", ⟨"/repo/a", ChangeType.create, 1⟩)]).2.2 = []) ∧
    ((drainPhase demoConfig [("/repo/a", ⟨"/repo/a", ChangeType.create, 1⟩)]).2.1.filesInQueue = 0) ∧
    ((queueChange mmNone
        (drainPhase demoConfig [("/repo/a", ⟨"/repo/a", ChangeType.create, 1⟩)]).2.1
        (drainPhase demoConfig [("/repo/a", ⟨"/repo/a", ChangeType.create, 1⟩)]).2.2
        "/repo/n.txt" ChangeType.change 7).2 =
      [("/repo/n.txt", ⟨"/repo/n.txt", ChangeType.change, 7⟩)]) := by
  have h := C3_drain_atomicity (fun _ _ => Except.ok ()) demoConfig
    [("/repo/a", ⟨"/repo/a", ChangeType.create, 1⟩)] 9 (by decide)
  exact ⟨h.1, h.2.1, h.2.2.1,
    h.2.2.2.2.2 mmNone "/repo/n.txt" ChangeType.change 7 (by decide)⟩

/-! ## Claim C6 — delete idempotency in `syncFile` -/

/-- Claim C6.  Delete idempotency: when the remote delete rejects with
status 404 the `syncFile` call completes successfully (no exception reaches
the caller, so the batch loop does not count it as an error), and when it
rejects with any status other than 404 the same error is rethrown. -/
theorem C6_syncFile_delete_idempotent (del : String → Except WebdavErr Unit)
    (up : String → String → Except WebdavErr Unit) (config : SyncConfiguration)
    (localPath : String) (e : WebdavErr)
    (hdel : del (toRemotePath localPath config.localPath config.remotePath) =
      Except.error e) :
    (e.status = some 404 →
      syncFile del up config localPath ChangeType.delete = Except.ok ()) ∧
    (e.status ≠ some 404 →
      syncFile del up config localPath ChangeType.delete = Except.error e) := by
  constructor
  · intro h404
    simp [syncFile, hdel, h404]
  · intro hne
    simp [syncFile, hdel, hne]

theorem C6_syncFile_delete_idempotent_witness :
    ((⟨some 404, none, none⟩ : WebdavErr).status = some 404 ∧
      syncFile (fun _ => Except.error ⟨some 404, none, none⟩)
        (fun _ _ => Except.ok ()) demoConfig "/repo/a.txt" ChangeType.delete =
        Except.ok ()) ∧
    ((⟨some 500, none, none⟩ : WebdavErr).status ≠ some 404 ∧
      syncFile (fun _ => Except.error ⟨some 500, none, none⟩)
        (fun _ _ => Except.ok ()) demoConfig "/repo/a.txt" ChangeType.delete =
        Except.error ⟨some 500, none, none⟩) := by
  constructor
  · exact ⟨rfl,
      (C6_syncFile_delete_idempotent (fun _ => Except.error ⟨some 404, none, none⟩)
        (fun _ _ => Except.ok ()) demoConfig "/repo/a.txt" ⟨some 404, none, none⟩
        rfl).1 rfl⟩
  · exact ⟨by decide,
      (C6_syncFile_delete_idempotent (fun _ => Except.error ⟨some 500, none, none⟩)
        (fun _ _ => Except.ok ()) demoConfig "/repo/a.txt" ⟨some 500, none, none⟩
        rfl).2 (by decide)⟩

/-! ## Claim C8 — `syncNow` preconditions -/

/-- Claim C8.  `syncNow` preconditions with atomicity: an unknown id yields
the configuration-not-found error and a disabled configuration the
sync-disabled error; on both paths the returned manager state is exactly the
input state (configuration registry, pending maps, notification count — so
status, `lastSyncTime`, `lastError`, `filesInQueue` and the queue are all
untouched and no change notification fires) and no upload is attempted. -/
theorem C8_syncNow_preconditions (up : String → String → Except String Unit)
    (st : ManagerState) (id : String) (files : List String) (now : Nat) :
    (cfgGet st.configurations id = none →
      syncNow up st id files now =
        (Except.error ("Sync configuration not found: " ++ id), st, [])) ∧
    (∀ config, cfgGet st.configurations id = some config →
      config.enabled = false →
      syncNow up st id files now =
        (Except.error ("Sync is disabled: " ++ config.name), st, [])) := by
  constructor
  · intro hnone
    simp [syncNow, hnone]
  · intro config hsome hdis
    simp [syncNow, hsome, hdis]

/-- Upload oracle of the witnesses: every upload succeeds. -/
def upOk : String → String → Except String Unit := fun _ _ => Except.ok ()

/-- Manager state used by the C8 witness: one disabled configuration. -/
def pausedState : ManagerState :=
  { configurations := [("cfg-1", { demoConfig with enabled := false })],
    pendingChanges := [("cfg-1", [])], notifications := 0 }

theorem C8_syncNow_preconditions_witness :
    (cfgGet pausedState.configurations "nope" = none ∧
      syncNow upOk pausedState "nope" [] 5 =
        (Except.error "Sync configuration not found: nope", pausedState, [])) ∧
    (cfgGet pausedState.configurations "cfg-1" =
        some { demoConfig with enabled := false } ∧
      syncNow upOk pausedState "cfg-1" [] 5 =
        (Except.error "Sync is disabled: demo", pausedState, [])) := by
  have h1 := (C8_syncNow_preconditions upOk pausedState "nope" [] 5).1 (by decide)
  have h2 := (C8_syncNow_preconditions upOk pausedState "cfg-1" [] 5).2
    { demoConfig with enabled := false } (by decide) (by decide)
  exact ⟨⟨by decide, h1⟩, ⟨by decide, h2⟩⟩

/-! ## Claim C7 — fail-fast full sync with positional error -/

theorem syncLoop_firstFail (up : String → String → Except String Unit)
    (config : SyncConfiguration) (total : Nat) (f m : String) (post : List String)
    (hf : up f (toRemotePath f config.localPath config.remotePath) =
      Except.error m) :
    ∀ (pre : List String) (completed : Nat) (att : List String),
    (∀ g ∈ pre, up g (toRemotePath g config.localPath config.remotePath) =
      Except.ok ()) →
    syncLoop up config total (pre ++ f :: post) completed att =
      (Except.error ("Failed at file " ++ Nat.repr (completed + pre.length + 1) ++
         "/" ++ Nat.repr total ++ ": " ++ f ++ "\n" ++ m),
       att.reverse ++ (pre ++ [f])) := by
  intro pre
  induction pre with
  | nil =>
    intro completed att _
    simp [syncLoop, hf]
  | cons g rest ih =>
    intro completed att hok
    have hg : up g (toRemotePath g config.localPath config.remotePath) =
        Except.ok () := hok g (by simp)
    have hrest : ∀ x ∈ rest,
        up x (toRemotePath x config.localPath config.remotePath) =
          Except.ok () := fun x hx => hok x (by simp [hx])
    have harg : completed + 1 + rest.length + 1 =
        completed + (g :: rest).length + 1 := by simp; omega
    calc syncLoop up config total ((g :: rest) ++ f :: post) completed att
        = syncLoop up config total (rest ++ f :: post) (completed + 1)
            (g :: att) := by
          simp [syncLoop, hg]
      _ = (Except.error ("Failed at file " ++
             Nat.repr (completed + 1 + rest.length + 1) ++ "/" ++
             Nat.repr total ++ ": " ++ f ++ "\n" ++ m),
           (g :: att).reverse ++ (rest ++ [f])) := ih (completed + 1) (g :: att) hrest
      _ = _ := by rw [harg]; simp

theorem take_at_firstFail (pre : List String) (f : String) (post : List String) :
    (pre ++ f :: post).take (pre.length + 1) = pre ++ [f] := by
  induction pre with
  | nil => simp
  | cons g rest ih => simp [List.take, ih]

/-- Claim C7.  Full-sync fail-fast with positional error: when the local
walk yields the files `pre ++ f :: post`, every upload in `pre` succeeds and
the upload of `f` (position k = `pre.length + 1`, 1-based) fails with
message `m`, `syncNow`'s execute phase rejects with the wrapper error; that
error's message contains the position `k/N` and the failing file's path;
uploads were attempted for exactly the first k files (never for the files
after `f`); the status becomes `error` and `lastError` records the
stringified failure. -/
theorem C7_syncNow_failFast (up : String → String → Except String Unit)
    (config : SyncConfiguration) (pre post : List String) (f m : String)
    (now : Nat)
    (hok : ∀ g ∈ pre, up g (toRemotePath g config.localPath config.remotePath) =
      Except.ok ())
    (hf : up f (toRemotePath f config.localPath config.remotePath) =
      Except.error m) :
    syncNowExecute up config (pre ++ f :: post) now =
      (Except.error ("Failed at file " ++ Nat.repr (pre.length + 1) ++ "/" ++
         Nat.repr (pre ++ f :: post).length ++ ": " ++ f ++ "\n" ++ m),
       { config with status := SyncStatus.error,
                     lastError := some ("Error: " ++
                       ("Failed at file " ++ Nat.repr (pre.length + 1) ++ "/" ++
                        Nat.repr (pre ++ f :: post).length ++ ": " ++ f ++
                        "\n" ++ m)) },
       (pre ++ f :: post).take (pre.length + 1)) ∧
    (∃ s1 s2, "Failed at file " ++ Nat.repr (pre.length + 1) ++ "/" ++
        Nat.repr (pre ++ f :: post).length ++ ": " ++ f ++ "\n" ++ m =
      s1 ++ (Nat.repr (pre.length + 1) ++ "/" ++
        Nat.repr (pre ++ f :: post).length) ++ s2) ∧
    (∃ t1 t2, "Failed at file " ++ Nat.repr (pre.length + 1) ++ "/" ++
        Nat.repr (pre ++ f :: post).length ++ ": " ++ f ++ "\n" ++ m =
      t1 ++ f ++ t2) := by
  have hloop := syncLoop_firstFail up
    { config with status := SyncStatus.syncing }
    (pre ++ f :: post).length f m post hf pre 0 [] hok
  refine ⟨?_, ?_, ?_⟩
  · simp only [syncNowExecute, hloop, Nat.zero_add, List.nil_append,
      List.reverse_nil, take_at_firstFail]
  · exact ⟨"Failed at file ", ": " ++ f ++ "\n" ++ m, by
      simp [String.append_assoc]⟩
  · exact ⟨"Failed at file " ++ Nat.repr (pre.length + 1) ++ "/" ++
      Nat.repr (pre ++ f :: post).length ++ ": ", "\n" ++ m, by
      simp [String.append_assoc]⟩

theorem C7_syncNow_failFast_witness :
    syncNowExecute (fun g _ => if g = "/repo/b" then Except.error "network error"
        else Except.ok ()) demoConfig ["/repo/a", "/repo/b", "/repo/c"] 10 =
      (Except.error "Failed at file 2/3: /repo/b\nnetwork error",
       { demoConfig with status := SyncStatus.error,
                         lastError :=
                           some "Error: Failed at file 2/3: /repo/b\nnetwork error" },
       ["/repo/a", "/repo/b"]) := by
  have h := C7_syncNow_failFast
    (fun g _ => if g = "/repo/b" then Except.error "network error"
      else Except.ok ())
    demoConfig ["/repo/a"] ["/repo/c"] "/repo/b" "network error" 10
    (by intro g hg; simp at hg; subst hg; rfl) (by rfl)
  have h1 := h.1
  rw [show (["/repo/a"] ++ "/repo/b" :: ["/repo/c"]) =
      ["/repo/a", "/repo/b", "/repo/c"] from rfl] at h1
  rw [h1]
  rfl

/-! ## Claims C4 and C5 — the directory-ensure chain -/

/-- Claim C4.  Directory-ensure race tolerance: for a non-skipped ancestor
whose stat fails, `createDirectory` is attempted — the call trace records
the attempt whether creation succeeds, fails with 405, or fails otherwise;
a 405 creation failure is treated exactly like success and the chain
continues with the remaining ancestors; a creation failure with any other
status aborts the chain with the thrown error; and an ensure-chain error
fails the enclosing `uploadFile` with the wrapped message. -/
theorem C4_ensure_race_tolerance (statr : String → Bool)
    (mkdir : String → Except WebdavErr Unit) (nb : String) :
    (∀ parent rest acc,
      ¬ (normalizePath parent = nb ∨
          (normalizePath parent).length < nb.length) →
      statr parent = false →
      mkdir parent = Except.ok () →
      ensureLoop statr mkdir nb (parent :: rest) acc =
        ensureLoop statr mkdir nb rest
          (RemoteCall.mkdirCall parent :: RemoteCall.statCall parent :: acc)) ∧
    (∀ parent rest acc e,
      ¬ (normalizePath parent = nb ∨
          (normalizePath parent).length < nb.length) →
      statr parent = false →
      mkdir parent = Except.error e →
      e.status = some 405 →
      ensureLoop statr mkdir nb (parent :: rest) acc =
        ensureLoop statr mkdir nb rest
          (RemoteCall.mkdirCall parent :: RemoteCall.statCall parent :: acc)) ∧
    (∀ parent rest acc e,
      ¬ (normalizePath parent = nb ∨
          (normalizePath parent).length < nb.length) →
      statr parent = false →
      mkdir parent = Except.error e →
      e.status ≠ some 405 →
      ensureLoop statr mkdir nb (parent :: rest) acc =
        (Except.error (mkdirFailMsg parent e),
         (RemoteCall.mkdirCall parent :: RemoteCall.statCall parent ::
           acc).reverse)) ∧
    (∀ (readf : String → Except String Unit)
        (put : String → Except WebdavErr Unit)
        (localPath remotePath basePath msg : String),
      (ensureRemoteDirectory statr mkdir remotePath basePath).1 =
        Except.error msg →
      getParentPath remotePath ≠ "/" →
      (uploadFile statr mkdir readf put localPath remotePath basePath).1 =
        Except.error (uploadWrap localPath remotePath msg none)) := by
  refine ⟨?_, ?_, ?_, ?_⟩
  · intro parent rest acc hskip hstat hmk
    simp [ensureLoop, hskip, hstat, hmk]
  · intro parent rest acc e hskip hstat hmk h405
    simp [ensureLoop, hskip, hstat, hmk, h405]
  · intro parent rest acc e hskip hstat hmk h405
    simp [ensureLoop, hskip, hstat, hmk, h405]
  · intro readf put localPath remotePath basePath msg hens hpar
    rcases hE : ensureRemoteDirectory statr mkdir remotePath basePath with
      ⟨res, calls⟩
    rw [hE] at hens
    simp only at hens
    subst hens
    simp [uploadFile, hpar, hE]

/-- The remote calls the ensure-chain makes for one ancestor: none when the
ancestor is skipped, a stat when it exists, a stat then a create when the
stat fails. -/
def ensureCallsFor (statr : String → Bool) (nb parent : String) :
    List RemoteCall :=
  if normalizePath parent = nb ∨ (normalizePath parent).length < nb.length then
    []
  else if statr parent then [RemoteCall.statCall parent]
  else [RemoteCall.statCall parent, RemoteCall.mkdirCall parent]

theorem ensureLoop_noAbort (statr : String → Bool)
    (mkdir : String → Except WebdavErr Unit) (nb : String)
    (hm : ∀ p e, mkdir p = Except.error e → e.status = some 405) :
    ∀ (parents : List String) (acc : List RemoteCall),
    ensureLoop statr mkdir nb parents acc =
      (Except.ok (), acc.reverse ++ parents.flatMap (ensureCallsFor statr nb)) := by
  intro parents
  induction parents with
  | nil => intro acc; simp [ensureLoop]
  | cons parent rest ih =>
    intro acc
    by_cases hskip : normalizePath parent = nb ∨
        (normalizePath parent).length < nb.length
    · simp [ensureLoop, hskip, ih, ensureCallsFor]
    · by_cases hstat : statr parent = true
      · simp [ensureLoop, hskip, hstat, ih, ensureCallsFor]
      · have hstat' : statr parent = false := by
          cases h : statr parent <;> simp_all
        cases hmk : mkdir parent with
        | ok u =>
          simp [ensureLoop, hskip, hstat', hmk, ih, ensureCallsFor]
        | error e =>
          have h405 := hm parent e hmk
          simp [ensureLoop, hskip, hstat', hmk, h405, ih, ensureCallsFor]

/-- Claim C5.  Base-path skip rule of the ensure-chain: in an abort-free
run, the chain succeeds and its remote-call trace is, ancestor by ancestor
in root-first `getAllParents` order, empty exactly for the ancestors whose
normalized form equals the normalized base path (one trailing slash
stripped) or whose length is strictly below the base path's length; every
other ancestor is stat'd, and additionally created when its stat fails —
purely a string-equality/length test, never a path-segment containment
test. -/
theorem C5_basePath_skip (statr : String → Bool)
    (mkdir : String → Except WebdavErr Unit) (remotePath basePath : String)
    (hm : ∀ p e, mkdir p = Except.error e → e.status = some 405) :
    (ensureRemoteDirectory statr mkdir remotePath basePath).1 =
      Except.ok () ∧
    (ensureRemoteDirectory statr mkdir remotePath basePath).2 =
      (getAllParents remotePath).flatMap
        (ensureCallsFor statr (normalizePath (stripTrailingSlash basePath))) ∧
    (∀ parent,
      (ensureCallsFor statr (normalizePath (stripTrailingSlash basePath))
          parent = [] ↔
        (normalizePath parent = normalizePath (stripTrailingSlash basePath) ∨
         (normalizePath parent).length <
           (normalizePath (stripTrailingSlash basePath)).length)) ∧
      (¬ (normalizePath parent = normalizePath (stripTrailingSlash basePath) ∨
          (normalizePath parent).length <
            (normalizePath (stripTrailingSlash basePath)).length) →
        ensureCallsFor statr (normalizePath (stripTrailingSlash basePath))
            parent =
          if statr parent then [RemoteCall.statCall parent]
          else [RemoteCall.statCall parent, RemoteCall.mkdirCall parent])) := by
  have h := ensureLoop_noAbort statr mkdir
    (normalizePath (stripTrailingSlash basePath)) hm (getAllParents remotePath) []
  refine ⟨?_, ?_, ?_⟩
  · simp [ensureRemoteDirectory, h]
  · simp [ensureRemoteDirectory, h]
  · intro parent
    constructor
    · constructor
      · intro hnil
        by_contra hcond
        simp [ensureCallsFor, hcond] at hnil
        by_cases hstat : statr parent = true <;> simp [hstat] at hnil
      · intro hcond
        simp [ensureCallsFor, hcond]
    · intro hcond
      simp [ensureCallsFor, hcond]

theorem C4_ensure_race_tolerance_witness :
    ensureLoop (fun _ => false)
        (fun p => if p = "/sync/a" then Except.error ⟨some 405, none, none⟩
          else Except.error ⟨some 403, some "Forbidden", none⟩)
        "/sync" ["/sync/a", "/sync/a/b"] [] =
      (Except.error "Failed to create directory /sync/a/b: Invalid response: 403 Forbidden",
       [RemoteCall.statCall "/sync/a", RemoteCall.mkdirCall "/sync/a",
        RemoteCall.statCall "/sync/a/b", RemoteCall.mkdirCall "/sync/a/b"]) ∧
    (uploadFile (fun _ => false)
        (fun _ => Except.error ⟨some 403, some "Forbidden", none⟩)
        (fun _ => Except.ok ()) (fun _ => Except.ok ())
        "/repo/a/f.txt" "/sync/a/f.txt" "/sync").1 =
      Except.error (uploadWrap "/repo/a/f.txt" "/sync/a/f.txt"
        "Failed to create directory /sync/a: Invalid response: 403 Forbidden" none) := by
  constructor
  · have h1 := (C4_ensure_race_tolerance (fun _ => false)
      (fun p => if p = "/sync/a" then Except.error ⟨some 405, none, none⟩
        else Except.error ⟨some 403, some "Forbidden", none⟩) "/sync").2.1
      "/sync/a" ["/sync/a/b"] [] ⟨some 405, none, none⟩
      (by decide) rfl (by decide) rfl
    have h2 := (C4_ensure_race_tolerance (fun _ => false)
      (fun p => if p = "/sync/a" then Except.error ⟨some 405, none, none⟩
        else Except.error ⟨some 403, some "Forbidden", none⟩) "/sync").2.2.1
      "/sync/a/b" []
      [RemoteCall.mkdirCall "/sync/a", RemoteCall.statCall "/sync/a"]
      ⟨some 403, some "Forbidden", none⟩
      (by decide) rfl (by decide) (by decide)
    rw [h1, h2]
    rfl
  · exact (C4_ensure_race_tolerance (fun _ => false)
      (fun _ => Except.error ⟨some 403, some "Forbidden", none⟩) "/sync").2.2.2
      (fun _ => Except.ok ()) (fun _ => Except.ok ())
      "/repo/a/f.txt" "/sync/a/f.txt" "/sync"
      "Failed to create directory /sync/a: Invalid response: 403 Forbidden"
      (by decide) (by decide)

theorem C5_basePath_skip_witness :
    (ensureRemoteDirectory (fun _ => true) (fun _ => Except.ok ())
        "/sync2/a/file" "/sync").1 = Except.ok () ∧
    (ensureRemoteDirectory (fun _ => true) (fun _ => Except.ok ())
        "/sync2/a/file" "/sync").2 =
      (getAllParents "/sync2/a/file").flatMap
        (ensureCallsFor (fun _ => true)
          (normalizePath (stripTrailingSlash "/sync"))) ∧
    (ensureRemoteDirectory (fun _ => true) (fun _ => Except.ok ())
        "/sync2/a/file" "/sync").2 =
      [RemoteCall.statCall "/sync2", RemoteCall.statCall "/sync2/a"] := by
  have h := C5_basePath_skip (fun _ => true) (fun _ => Except.ok ())
    "/sync2/a/file" "/sync" (fun p e hpe => by simp at hpe)
  exact ⟨h.1, h.2.1, by decide⟩

/-! ## Claim C9 — remote path mapping -/

theorem strStartsWith_ensureSlash (rp : String) :
    strStartsWith (if strStartsWith rp "/" then rp else "/" ++ rp) "/" = true := by
  by_cases h : strStartsWith rp "/" = true
  · simp [h]
  · have hb : strStartsWith rp "/" = false := by
      cases hh : strStartsWith rp "/" <;> simp_all
    rw [if_neg (by simp [hb])]
    unfold strStartsWith
    rw [String.data_append]
    have hslash : ("/" : String).data = ['/'] := rfl
    rw [hslash]
    simp [List.isPrefixOf]

/-- Claim C9.  Remote path mapping: the spec's concrete instance holds;
whenever the remote base parses as a URL the result is the URL's path
component joined (with separator normalization) onto the relative path from
the local root, with a leading `/` ensured; when it does not parse it is
used as a literal path prefix the same way; and the result always starts
with `/`. -/
theorem C9_toRemotePath (localPath localBase webdavUrl : String) :
    toRemotePath "/repo/src/a.ts" "/repo" "https://host/base/" =
      "/base/src/a.ts" ∧
    (∀ bp, urlPathname webdavUrl = some bp →
      toRemotePath localPath localBase webdavUrl =
        (if strStartsWith (joinPaths bp (getRelativePath localBase localPath)) "/"
         then joinPaths bp (getRelativePath localBase localPath)
         else "/" ++ joinPaths bp (getRelativePath localBase localPath))) ∧
    (urlPathname webdavUrl = none →
      toRemotePath localPath localBase webdavUrl =
        (if strStartsWith
              (joinPaths webdavUrl (getRelativePath localBase localPath)) "/"
         then joinPaths webdavUrl (getRelativePath localBase localPath)
         else "/" ++ joinPaths webdavUrl (getRelativePath localBase localPath))) ∧
    strStartsWith (toRemotePath localPath localBase webdavUrl) "/" = true := by
  refine ⟨by decide, ?_, ?_, ?_⟩
  · intro bp hbp
    simp [toRemotePath, hbp]
  · intro hbp
    simp [toRemotePath, hbp]
  · cases h : urlPathname webdavUrl with
    | none =>
      simp only [toRemotePath, h]
      exact strStartsWith_ensureSlash _
    | some bp =>
      simp only [toRemotePath, h]
      exact strStartsWith_ensureSlash _

theorem C9_toRemotePath_witness :
    toRemotePath "/repo/src/a.ts" "/repo" "https://host/base/" =
      "/base/src/a.ts" ∧
    toRemotePath "/repo/src/a.ts" "/repo" "https://host/base/" =
      (if strStartsWith
            (joinPaths "/base/" (getRelativePath "/repo" "/repo/src/a.ts")) "/"
       then joinPaths "/base/" (getRelativePath "/repo" "/repo/src/a.ts")
       else "/" ++ joinPaths "/base/" (getRelativePath "/repo" "/repo/src/a.ts")) ∧
    toRemotePath "/repo/a" "/repo" "bare/path" =
      (if strStartsWith
            (joinPaths "bare/path" (getRelativePath "/repo" "/repo/a")) "/"
       then joinPaths "bare/path" (getRelativePath "/repo" "/repo/a")
       else "/" ++ joinPaths "bare/path" (getRelativePath "/repo" "/repo/a")) ∧
    strStartsWith (toRemotePath "/repo/src/a.ts" "/repo" "https://host/base/")
      "/" = true := by
  have h := C9_toRemotePath "/repo/src/a.ts" "/repo" "https://host/base/"
  have h2 := C9_toRemotePath "/repo/a" "/repo" "bare/path"
  exact ⟨h.1, h.2.1 "/base/" (by decide), h2.2.2.1 (by decide), h.2.2.2⟩

/-! ## Claim C10 — hidden-file policy asymmetry -/

/-- Claim C10.  With `syncHidden` off, `walkDirectory`'s walk drops any
directory entry — file or directory — whose own name starts with `.`, so
the entire subtree below a dot-prefixed directory contributes nothing to a
full-sync walk; `queueChange`, by contrast, tests only the basename of the
event path, so an event for a file whose basename is not dot-prefixed is
enqueued even when an ancestor directory component is dot-prefixed
(provided the path is not excluded); on files under hidden directories the
two paths therefore disagree, as the concrete instance shows. -/
theorem C10_hidden_policy_asymmetry :
    (∀ (mm : String → String → Bool) (dirPath : String)
        (patterns : List String) (cur name : String) (children next : FSTree),
      strStartsWith name "." = true →
      walkTree mm dirPath patterns false cur (FSTree.dir name children next) =
        walkTree mm dirPath patterns false cur next) ∧
    (∀ (mm : String → String → Bool) (dirPath : String)
        (patterns : List String) (cur name : String) (next : FSTree),
      strStartsWith name "." = true →
      walkTree mm dirPath patterns false cur (FSTree.file name next) =
        walkTree mm dirPath patterns false cur next) ∧
    (∀ (mm : String → String → Bool) (config : SyncConfiguration)
        (changes : List (String × PendingChange)) (filePath : String)
        (type : ChangeType) (now : Nat),
      config.enabled = true →
      isExcluded mm (getRelativePath config.localPath filePath)
        config.excludePatterns = false →
      strStartsWith (jsBasename filePath) "." = false →
      (type = ChangeType.delete → config.syncOnDelete = true) →
      mapGet (queueChange mm config changes filePath type now).2 filePath =
        some ⟨filePath, type, now⟩) ∧
    (walkDirectory mmNone "/repo"
        (FSTree.dir ".hidden" (FSTree.file "f.txt" FSTree.nil) FSTree.nil)
        [] false = [] ∧
      mapGet (queueChange mmNone demoConfig [] "/repo/.hidden/f.txt"
          ChangeType.create 1).2 "/repo/.hidden/f.txt" =
        some ⟨"/repo/.hidden/f.txt", ChangeType.create, 1⟩) := by
  refine ⟨?_, ?_, ?_, by decide, by decide⟩
  · intro mm dirPath patterns cur name children next hname
    simp [walkTree, hname]
  · intro mm dirPath patterns cur name next hname
    simp [walkTree, hname]
  · intro mm config changes filePath type now h1 h2 h3 h4
    have hq : qualifies mm config filePath type := by
      refine ⟨h1, by simp [h2], ?_, ?_⟩
      · intro hcontra
        exact absurd hcontra.2 (by simp [h3])
      · intro hcontra
        exact hcontra.2 (h4 hcontra.1)
    rw [queueChange_qualified mm config changes filePath type now hq]
    exact mapGet_mapSet_self changes filePath _

theorem C10_hidden_policy_asymmetry_witness :
    walkTree mmNone "/repo" [] false "/repo"
        (FSTree.dir ".hidden" (FSTree.file "f.txt" FSTree.nil) FSTree.nil) =
      walkTree mmNone "/repo" [] false "/repo" FSTree.nil ∧
    mapGet (queueChange mmNone demoConfig [] "/repo/.hidden/f.txt"
        ChangeType.create 1).2 "/repo/.hidden/f.txt" =
      some ⟨"/repo/.hidden/f.txt", ChangeType.create, 1⟩ := by
  have h := C10_hidden_policy_asymmetry
  exact ⟨h.1 mmNone "/repo" [] "/repo" ".hidden"
      (FSTree.file "f.txt" FSTree.nil) FSTree.nil (by decide),
    h.2.2.1 mmNone demoConfig [] "/repo/.hidden/f.txt" ChangeType.create 1
      rfl (by decide) (by decide) (fun _ => rfl)⟩

end WebdavSync
